import Mathlib

set_option maxHeartbeats 1000000

/-!
Shallow embedding of the release-ingestion pipeline of `discogs-load`
(`src/discogs-load/src/release.rs` and `src/discogs-load/src/db.rs`).

The parser state machine (`ReleasesParser::process`) is translated event by
event; the five batch accumulators are translated as association lists
(`HashMap` keeps keys unordered, `BTreeMap` keeps keys sorted); the bulk
writer (`write_releases` / `InsertCommand::execute`) is translated as a
function from an accumulator snapshot to the list of binary rows written,
parameterised by the (unspecified) iteration order of Rust's `HashMap`.
Calls to `write_releases` made inside `process` are recorded in a `flushes`
log carried in the parser state.
-/

namespace DiscogsLoad

/-- Errors surfaced by `ReleasesParser::process`.  In the Rust source the
type-conversion failures travel through `Box<dyn Error>` (propagated with
`?`), while a failed `Option::unwrap` on a missing attribute aborts the
process with a panic; the model keeps the two apart. -/
inductive PError
  | malformed
  | panicked
  deriving DecidableEq, Repr

/-- The quick_xml structural events consumed by `process` (`Event::Start`,
`Event::Empty`, `Event::Text`, `Event::End`).  An attribute list is the
ordered key/value list of the tag.  Other quick_xml event kinds only ever hit
the wildcard arms of the source's matches, exactly like an unrecognised
`close`, and are omitted from the model. -/
inductive Event
  | start (name : String) (attrs : List (String × String))
  | empty (name : String) (attrs : List (String × String))
  | text (content : String)
  | close (name : String)
  deriving DecidableEq, Repr

/-- The characters after the first `:` of a tag name, if any. -/
def dropThroughColon : List Char → Option (List Char)
  | [] => none
  | c :: cs => if c = ':' then some cs else dropThroughColon cs

/-- Models `BytesStart::local_name`: the part of the name after the first `:`,
or the whole name when there is no prefix. -/
def localName (s : String) : String :=
  match dropThroughColon s.toList with
  | some rest => String.mk rest
  | none => s

/-- Models `e.attributes().nth(i).unwrap()?.unescaped_value()?`: the `unwrap`
panics when the attribute is absent (escaping is not modelled). -/
def attrNth (attrs : List (String × String)) (i : Nat) : Except PError String :=
  match attrs.get? i with
  | some a => .ok a.2
  | none => .error .panicked

/-- Models `e.attributes().find(|a| a.key == key)`, yielding the raw value. -/
def attrFind (attrs : List (String × String)) (key : String) : Option String :=
  (attrs.find? (fun a => a.1 == key)).map (fun a => a.2)

/-- Value of an ASCII digit. -/
def digitVal (c : Char) : Option Nat :=
  if c = '0' then some 0 else if c = '1' then some 1 else if c = '2' then some 2
  else if c = '3' then some 3 else if c = '4' then some 4 else if c = '5' then some 5
  else if c = '6' then some 6 else if c = '7' then some 7 else if c = '8' then some 8
  else if c = '9' then some 9 else none

def parseDigitsAux (acc : Nat) : List Char → Option Nat
  | [] => some acc
  | c :: cs =>
    match digitVal c with
    | some d => parseDigitsAux (10 * acc + d) cs
    | none => none

/-- One or more ASCII digits. -/
def parseNatList : List Char → Option Nat
  | [] => none
  | c :: cs => parseDigitsAux 0 (c :: cs)

/-- Models `str::parse::<i32>`: an optional sign, then one or more ASCII digits,
and the value must fit in `i32`. -/
def parseI32 (s : String) : Except PError Int :=
  let core : Option Int :=
    match s.toList with
    | [] => none
    | c :: cs =>
      if c = '-' then
        (parseNatList cs).bind (fun n => if n ≤ 2147483648 then some (-(n : Int)) else none)
      else if c = '+' then
        (parseNatList cs).bind (fun n => if n ≤ 2147483647 then some ((n : Int)) else none)
      else
        (parseNatList (c :: cs)).bind (fun n => if n ≤ 2147483647 then some ((n : Int)) else none)
  match core with
  | some v => .ok v
  | none => .error .malformed

/-- The postgres binary values produced by the `SqlSerialization::to_sql`
implementations; the declared column types in `db.rs` use exactly
`Type::INT4`, `Type::TEXT` and `Type::TEXT_ARRAY`. -/
inductive SqlValue
  | int4 (i : Int)
  | text (s : String)
  | textArray (l : List String)
  deriving DecidableEq, Repr

structure Track where
  position : String
  title : String
  duration : String
  release_id : Int
  deriving DecidableEq, Repr

def Track.new (release_id : Int) : Track :=
  ⟨"", "", "", release_id⟩

def Track.to_sql (t : Track) : List SqlValue :=
  [.int4 t.release_id, .text t.title, .text t.position, .text t.duration]

structure Format where
  name : String
  qty : String
  text : String
  release_id : Int
  deriving DecidableEq, Repr

def Format.new (release_id : Int) (name qty text : String) : Format :=
  ⟨name, qty, text, release_id⟩

def Format.to_sql (f : Format) : List SqlValue :=
  [.int4 f.release_id, .text f.name, .text f.qty, .text f.text]

structure Release where
  id : Int
  status : String
  title : String
  country : String
  released : String
  notes : String
  genres : List String
  styles : List String
  master_id : Int
  data_quality : String
  deriving DecidableEq, Repr

def Release.new (id : Int) : Release :=
  ⟨id, "", "", "", "", "", [], [], 0, ""⟩

def Release.to_sql (r : Release) : List SqlValue :=
  [.int4 r.id, .text r.status, .text r.title, .text r.country, .text r.released,
   .text r.notes, .textArray r.genres, .textArray r.styles, .int4 r.master_id,
   .text r.data_quality]

structure ReleaseLabel where
  release_id : Int
  label : String
  catno : String
  label_id : Int
  deriving DecidableEq, Repr

def ReleaseLabel.to_sql (l : ReleaseLabel) : List SqlValue :=
  [.int4 l.release_id, .text l.label, .text l.catno, .int4 l.label_id]

structure ReleaseVideo where
  release_id : Int
  duration : Int
  src : String
  title : String
  deriving DecidableEq, Repr

def ReleaseVideo.to_sql (v : ReleaseVideo) : List SqlValue :=
  [.int4 v.release_id, .int4 v.duration, .text v.src, .text v.title]

inductive ParserReadState
  | Release
  | Title
  | Country
  | Released
  | Notes
  | Genres
  | Genre
  | Styles
  | Style
  | MasterId
  | DataQuality
  | Labels
  | Videos
  | TrackList
  | Track
  | TrackPosition
  | TrackTitle
  | TrackDuration
  | Images
  | Artists
  | ExtraArtists
  | Formats
  | Format
  | Identifiers
  | Companies
  deriving DecidableEq, Repr

/-- The fields of `DbOpt` read by the core pipeline; the connection fields
only feed the (unmodelled) network layer. -/
structure DbOpt where
  batch_size : Nat
  deriving DecidableEq, Repr

/-- A snapshot of the five batch accumulators as handed to `write_releases`:
one `Flush` per invocation of the bulk writer. -/
structure Flush where
  releases : List (Int × Release)
  release_labels : List (Int × ReleaseLabel)
  release_videos : List (Int × ReleaseVideo)
  tracks : List (Int × Track)
  formats : List (Int × Format)
  deriving DecidableEq, Repr

/-- The mutable state of `ReleasesParser`.  `HashMap`s and `BTreeMap`s are
association lists (the `BTreeMap`-backed `tracks`/`formats` are kept sorted
by key by their insert operations below).  `flushes` records each call of
`write_releases`; the `indicatif` progress bar is I/O-only and omitted, and
`db_opts` is passed to `process` as an argument. -/
structure ReleasesParser where
  state : ParserReadState
  releases : List (Int × Release)
  current_release : Release
  current_id : Int
  release_labels : List (Int × ReleaseLabel)
  current_video_id : Int
  release_videos : List (Int × ReleaseVideo)
  current_track_id : Int
  tracks : List (Int × Track)
  current_format_id : Int
  formats : List (Int × Format)
  flushes : List Flush
  deriving DecidableEq, Repr

/-- Models `ReleasesParser::new`. -/
def ReleasesParser.new : ReleasesParser :=
  ⟨.Release, [], Release.new 0, 0, [], 0, [], 0, [], 0, [], []⟩

/-- Whether a `HashMap` modelled as an association list contains a key. -/
def hmContains (m : List (Int × α)) (k : Int) : Bool :=
  m.any (fun e => e.1 == k)

/-- Models `HashMap::entry(k).or_insert(v)`: insert-if-absent. -/
def hmOrInsert (m : List (Int × α)) (k : Int) (v : α) : List (Int × α) :=
  if hmContains m k then m else m ++ [(k, v)]

/-- Models `BTreeMap::entry(k).or_insert(d)` followed by a field update `f` on the
entry's value: inserts `f d` in key order when `k` is absent, otherwise
replaces the stored `v` by `f v`. -/
def btEntryModify (m : List (Int × α)) (k : Int) (d : α) (f : α → α) : List (Int × α) :=
  match m with
  | [] => [(k, f d)]
  | (k', v) :: rest =>
    if k < k' then (k, f d) :: (k', v) :: rest
    else if k = k' then (k', f v) :: rest
    else (k', v) :: btEntryModify rest k d f

/-- Models `BTreeMap::insert(k, v)`: insert in key order, overwriting. -/
def btInsert (m : List (Int × α)) (k : Int) (v : α) : List (Int × α) :=
  match m with
  | [] => [(k, v)]
  | (k', v') :: rest =>
    if k < k' then (k, v) :: (k', v') :: rest
    else if k = k' then (k, v) :: rest
    else (k', v') :: btInsert rest k v

def btFind (m : List (Int × α)) (k : Int) : Option α :=
  match m with
  | [] => none
  | (k', v) :: rest => if k = k' then some v else btFind rest k

/-- Models `BTreeMap::values()`: ascending key order (the lists are kept sorted). -/
def btValues (m : List (Int × α)) : List α := m.map Prod.snd

/-- The `Event::Start` arm guarded by `e.local_name() == b"release"`: the
first attribute must parse as the release id, the second is the status
(`str::parse::<String>` cannot fail); a fresh `Release::new(current_id)`
becomes the current record. -/
def releaseOpen (p : ReleasesParser) (attrs : List (String × String)) :
    Except PError ReleasesParser :=
  match attrNth attrs 0 with
  | .error e => .error e
  | .ok idS =>
    match parseI32 idS with
    | .error e => .error e
    | .ok idv =>
      match attrNth attrs 1 with
      | .error e => .error e
      | .ok statusS =>
        .ok { p with current_id := idv,
                     current_release := { Release.new idv with status := statusS },
                     state := .Release }

/-- The `Event::End` arm for `</release>`: insert-if-absent into the batch,
then flush and clear every accumulator when the batch is full. -/
def releaseCloseStep (opts : DbOpt) (p : ReleasesParser) : Except PError ReleasesParser :=
  let rels := hmOrInsert p.releases p.current_id p.current_release
  if rels.length ≥ opts.batch_size then
    let fl : Flush := ⟨rels, p.release_labels, p.release_videos, p.tracks, p.formats⟩
    .ok { p with releases := [], release_labels := [], release_videos := [],
                 tracks := [], formats := [],
                 flushes := p.flushes ++ [fl],
                 state := .Release }
  else
    .ok { p with releases := rels, state := .Release }

/-- The `Event::End` arm for `</releases>`: flush the remainder
unconditionally (the accumulators are not cleared afterwards). -/
def releasesCloseStep (p : ReleasesParser) : Except PError ReleasesParser :=
  let fl : Flush := ⟨p.releases, p.release_labels, p.release_videos, p.tracks, p.formats⟩
  .ok { p with flushes := p.flushes ++ [fl], state := .Release }

/-- The `Event::Empty` arm of the Labels state (no name guard in the
source): the entry key `label_id` is parsed first from the third attribute,
positionally; the struct fields then re-read the attributes positionally,
the repeated parse of the third attribute yielding the same value. -/
def labelEmptyStep (p : ReleasesParser) (attrs : List (String × String)) :
    Except PError ReleasesParser :=
  match attrNth attrs 2 with
  | .error e => .error e
  | .ok lidS =>
    match parseI32 lidS with
    | .error e => .error e
    | .ok lid =>
      match attrNth attrs 0 with
      | .error e => .error e
      | .ok labS =>
        match attrNth attrs 1 with
        | .error e => .error e
        | .ok catS =>
          .ok { p with release_labels := hmOrInsert p.release_labels lid
                         ⟨p.current_release.id, labS, catS, lid⟩,
                       state := .Labels }

/-- The `Event::Start` arm for `<video ...>` in the Videos state: the second
attribute must parse as the `i32` duration, the first is the source URL, and
the title is left empty (`String::new()`). -/
def videoOpenStep (p : ReleasesParser) (attrs : List (String × String)) :
    Except PError ReleasesParser :=
  match attrNth attrs 1 with
  | .error e => .error e
  | .ok durS =>
    match parseI32 durS with
    | .error e => .error e
    | .ok dur =>
      match attrNth attrs 0 with
      | .error e => .error e
      | .ok srcS =>
        .ok { p with release_videos := hmOrInsert p.release_videos p.current_video_id
                       ⟨p.current_release.id, dur, srcS, ""⟩,
                     current_video_id := p.current_video_id + 1,
                     state := .Videos }

/-- The `Event::Text` arm of the MasterId state: strict `i32` parse. -/
def masterIdText (p : ReleasesParser) (c : String) : Except PError ReleasesParser :=
  match parseI32 c with
  | .error e => .error e
  | .ok m =>
    .ok { p with current_release := { p.current_release with master_id := m },
                 state := .MasterId }

/-- The second `Event::Start` arm of the Release state: the match on
`e.local_name()` selecting the child element's dedicated state (the arms'
bodies are bare `ParserReadState` values; the wildcard keeps `Release`).
This arm is only reached when the name is not `release`. -/
def releaseChildState (n : String) : ParserReadState :=
  if n = "title" then .Title
  else if n = "country" then .Country
  else if n = "released" then .Released
  else if n = "notes" then .Notes
  else if n = "genres" then .Genres
  else if n = "styles" then .Styles
  else if n = "master_id" then .MasterId
  else if n = "data_quality" then .DataQuality
  else if n = "labels" then .Labels
  else if n = "videos" then .Videos
  else if n = "tracklist" then .TrackList
  else if n = "images" then .Images
  else if n = "artists" then .Artists
  else if n = "extraartists" then .ExtraArtists
  else if n = "formats" then .Formats
  else if n = "identifiers" then .Identifiers
  else if n = "companies" then .Companies
  else .Release

/-- The `ParserReadState::Release` arm of `process`. -/
def stepRelease (opts : DbOpt) (p : ReleasesParser) (ev : Event) : Except PError ReleasesParser :=
  match ev with
  | .start n attrs =>
    if localName n = "release" then releaseOpen p attrs
    else .ok { p with state := releaseChildState (localName n) }
  | .close n =>
    if localName n = "release" then releaseCloseStep opts p
    else if localName n = "releases" then releasesCloseStep p
    else .ok { p with state := .Release }
  | _ => .ok { p with state := .Release }

/-- The `ParserReadState::TrackList` arm of `process`. -/
def stepTrackList (p : ReleasesParser) (ev : Event) : Except PError ReleasesParser :=
  match ev with
  | .start n _ =>
    if localName n = "track" then .ok { p with state := .Track }
    else .ok { p with state := .TrackList }
  | .close n =>
    if localName n = "tracklist" then .ok { p with state := .Release }
    else .ok { p with state := .TrackList }
  | _ => .ok { p with state := .TrackList }

/-- The `ParserReadState::Track` arm of `process`. -/
def stepTrack (p : ReleasesParser) (ev : Event) : Except PError ReleasesParser :=
  match ev with
  | .start n _ =>
    if localName n = "title" then .ok { p with state := .TrackTitle }
    else if localName n = "position" then .ok { p with state := .TrackPosition }
    else if localName n = "duration" then .ok { p with state := .TrackDuration }
    else .ok { p with state := .Track }
  | .close n =>
    if localName n = "track" then
      .ok { p with current_track_id := p.current_track_id + 1, state := .TrackList }
    else .ok { p with state := .Track }
  | _ => .ok { p with state := .Track }

/-- The `ParserReadState::TrackTitle` arm of `process`. -/
def stepTrackTitle (p : ReleasesParser) (ev : Event) : Except PError ReleasesParser :=
  match ev with
  | .text c =>
    .ok { p with tracks := btEntryModify p.tracks p.current_track_id
                   (Track.new p.current_id) (fun t => { t with title := c }),
                 state := .TrackTitle }
  | .close n =>
    if localName n = "title" then .ok { p with state := .Track }
    else .ok { p with state := .TrackTitle }
  | _ => .ok { p with state := .TrackTitle }

/-- The `ParserReadState::TrackPosition` arm of `process`. -/
def stepTrackPosition (p : ReleasesParser) (ev : Event) : Except PError ReleasesParser :=
  match ev with
  | .text c =>
    .ok { p with tracks := btEntryModify p.tracks p.current_track_id
                   (Track.new p.current_id) (fun t => { t with position := c }),
                 state := .TrackPosition }
  | .close n =>
    if localName n = "position" then .ok { p with state := .Track }
    else .ok { p with state := .TrackPosition }
  | _ => .ok { p with state := .TrackPosition }

/-- The `ParserReadState::TrackDuration` arm of `process`. -/
def stepTrackDuration (p : ReleasesParser) (ev : Event) : Except PError ReleasesParser :=
  match ev with
  | .text c =>
    .ok { p with tracks := btEntryModify p.tracks p.current_track_id
                   (Track.new p.current_id) (fun t => { t with duration := c }),
                 state := .TrackDuration }
  | .close n =>
    if localName n = "duration" then .ok { p with state := .Track }
    else .ok { p with state := .TrackDuration }
  | _ => .ok { p with state := .TrackDuration }

/-- The `ParserReadState::Companies` arm of `process`. -/
def stepCompanies (p : ReleasesParser) (ev : Event) : Except PError ReleasesParser :=
  match ev with
  | .close n =>
    if localName n = "companies" then .ok { p with state := .Release }
    else .ok { p with state := .Companies }
  | _ => .ok { p with state := .Companies }

/-- The `ParserReadState::Identifiers` arm of `process`. -/
def stepIdentifiers (p : ReleasesParser) (ev : Event) : Except PError ReleasesParser :=
  match ev with
  | .close n =>
    if localName n = "identifiers" then .ok { p with state := .Release }
    else .ok { p with state := .Identifiers }
  | _ => .ok { p with state := .Identifiers }

/-- The `ParserReadState::Artists` arm of `process`. -/
def stepArtists (p : ReleasesParser) (ev : Event) : Except PError ReleasesParser :=
  match ev with
  | .close n =>
    if localName n = "artists" then .ok { p with state := .Release }
    else .ok { p with state := .Artists }
  | _ => .ok { p with state := .Artists }

/-- The `ParserReadState::ExtraArtists` arm of `process`. -/
def stepExtraArtists (p : ReleasesParser) (ev : Event) : Except PError ReleasesParser :=
  match ev with
  | .close n =>
    if localName n = "extraartists" then .ok { p with state := .Release }
    else .ok { p with state := .ExtraArtists }
  | _ => .ok { p with state := .ExtraArtists }

/-- The `ParserReadState::Images` arm of `process`. -/
def stepImages (p : ReleasesParser) (ev : Event) : Except PError ReleasesParser :=
  match ev with
  | .close n =>
    if localName n = "images" then .ok { p with state := .Release }
    else .ok { p with state := .Images }
  | _ => .ok { p with state := .Images }

/-- The `ParserReadState::Formats` arm of `process`: a `<format ...>` open
tag resolves its attributes by name, any absent one defaulting to the empty
string, and overwrites the current synthetic key (`BTreeMap::insert`). -/
def stepFormats (p : ReleasesParser) (ev : Event) : Except PError ReleasesParser :=
  match ev with
  | .start n attrs =>
    if localName n = "format" then
      .ok { p with formats := btInsert p.formats p.current_format_id
                     (Format.new p.current_id
                       ((attrFind attrs "name").getD "")
                       ((attrFind attrs "qty").getD "")
                       ((attrFind attrs "text").getD "")),
                   state := .Format }
    else .ok { p with state := .Formats }
  | .close n =>
    if localName n = "formats" then .ok { p with state := .Release }
    else .ok { p with state := .Formats }
  | _ => .ok { p with state := .Formats }

/-- The `ParserReadState::Format` arm of `process`. -/
def stepFormat (p : ReleasesParser) (ev : Event) : Except PError ReleasesParser :=
  match ev with
  | .close n =>
    if localName n = "format" then
      .ok { p with current_format_id := p.current_format_id + 1, state := .Formats }
    else .ok { p with state := .Format }
  | _ => .ok { p with state := .Format }

/-- The `ParserReadState::Title` arm of `process`. -/
def stepTitle (p : ReleasesParser) (ev : Event) : Except PError ReleasesParser :=
  match ev with
  | .text c =>
    .ok { p with current_release := { p.current_release with title := c }, state := .Title }
  | .close n =>
    if localName n = "title" then .ok { p with state := .Release }
    else .ok { p with state := .Title }
  | _ => .ok { p with state := .Title }

/-- The `ParserReadState::Country` arm of `process`. -/
def stepCountry (p : ReleasesParser) (ev : Event) : Except PError ReleasesParser :=
  match ev with
  | .text c =>
    .ok { p with current_release := { p.current_release with country := c }, state := .Country }
  | .close n =>
    if localName n = "country" then .ok { p with state := .Release }
    else .ok { p with state := .Country }
  | _ => .ok { p with state := .Country }

/-- The `ParserReadState::Released` arm of `process`. -/
def stepReleased (p : ReleasesParser) (ev : Event) : Except PError ReleasesParser :=
  match ev with
  | .text c =>
    .ok { p with current_release := { p.current_release with released := c }, state := .Released }
  | .close n =>
    if localName n = "released" then .ok { p with state := .Release }
    else .ok { p with state := .Released }
  | _ => .ok { p with state := .Released }

/-- The `ParserReadState::Notes` arm of `process`. -/
def stepNotes (p : ReleasesParser) (ev : Event) : Except PError ReleasesParser :=
  match ev with
  | .text c =>
    .ok { p with current_release := { p.current_release with notes := c }, state := .Notes }
  | .close n =>
    if localName n = "notes" then .ok { p with state := .Release }
    else .ok { p with state := .Notes }
  | _ => .ok { p with state := .Notes }

/-- The `ParserReadState::Genres` arm of `process`. -/
def stepGenres (p : ReleasesParser) (ev : Event) : Except PError ReleasesParser :=
  match ev with
  | .start n _ =>
    if localName n = "genre" then .ok { p with state := .Genre }
    else .ok { p with state := .Genres }
  | .close n =>
    if localName n = "genres" then .ok { p with state := .Release }
    else .ok { p with state := .Genres }
  | _ => .ok { p with state := .Genres }

/-- The `ParserReadState::Genre` arm of `process`: text extends the list
(`Vec::extend` with the infallible `str::parse::<String>` appends one
element, preserving document order). -/
def stepGenre (p : ReleasesParser) (ev : Event) : Except PError ReleasesParser :=
  match ev with
  | .text c =>
    .ok { p with current_release :=
                   { p.current_release with genres := p.current_release.genres ++ [c] },
                 state := .Genre }
  | .close n =>
    if localName n = "genre" then .ok { p with state := .Genres }
    else .ok { p with state := .Genre }
  | _ => .ok { p with state := .Genre }

/-- The `ParserReadState::Styles` arm of `process`. -/
def stepStyles (p : ReleasesParser) (ev : Event) : Except PError ReleasesParser :=
  match ev with
  | .start n _ =>
    if localName n = "style" then .ok { p with state := .Style }
    else .ok { p with state := .Styles }
  | .close n =>
    if localName n = "styles" then .ok { p with state := .Release }
    else .ok { p with state := .Styles }
  | _ => .ok { p with state := .Styles }

/-- The `ParserReadState::Style` arm of `process`. -/
def stepStyle (p : ReleasesParser) (ev : Event) : Except PError ReleasesParser :=
  match ev with
  | .text c =>
    .ok { p with current_release :=
                   { p.current_release with styles := p.current_release.styles ++ [c] },
                 state := .Style }
  | .close n =>
    if localName n = "style" then .ok { p with state := .Styles }
    else .ok { p with state := .Style }
  | _ => .ok { p with state := .Style }

/-- The `ParserReadState::MasterId` arm of `process`. -/
def stepMasterId (p : ReleasesParser) (ev : Event) : Except PError ReleasesParser :=
  match ev with
  | .text c => masterIdText p c
  | .close n =>
    if localName n = "master_id" then .ok { p with state := .Release }
    else .ok { p with state := .MasterId }
  | _ => .ok { p with state := .MasterId }

/-- The `ParserReadState::DataQuality` arm of `process`. -/
def stepDataQuality (p : ReleasesParser) (ev : Event) : Except PError ReleasesParser :=
  match ev with
  | .text c =>
    .ok { p with current_release := { p.current_release with data_quality := c },
                 state := .DataQuality }
  | .close n =>
    if localName n = "data_quality" then .ok { p with state := .Release }
    else .ok { p with state := .DataQuality }
  | _ => .ok { p with state := .DataQuality }

/-- The `ParserReadState::Labels` arm of `process`.  The `Event::Empty` arm
of the source has no name guard: every self-closing element reaching the
Labels state is treated as a label cross-reference. -/
def stepLabels (p : ReleasesParser) (ev : Event) : Except PError ReleasesParser :=
  match ev with
  | .empty _ attrs => labelEmptyStep p attrs
  | .close n =>
    if localName n = "labels" then .ok { p with state := .Release }
    else .ok { p with state := .Labels }
  | _ => .ok { p with state := .Labels }

/-- The `ParserReadState::Videos` arm of `process`. -/
def stepVideos (p : ReleasesParser) (ev : Event) : Except PError ReleasesParser :=
  match ev with
  | .start n attrs =>
    if localName n = "video" then videoOpenStep p attrs
    else .ok { p with state := .Videos }
  | .close n =>
    if localName n = "videos" then .ok { p with state := .Release }
    else .ok { p with state := .Videos }
  | _ => .ok { p with state := .Videos }

/-- Models `ReleasesParser::process` (release.rs), one structural event per call.
Each state's match arms, translated in source order, live in the `step...`
definition named after the state; string dispatch on `local_name` becomes a
chain of equality tests.  A flush (a call of `write_releases`) appends the
five accumulator snapshots to `flushes`. -/
def process (opts : DbOpt) (p : ReleasesParser) (ev : Event) : Except PError ReleasesParser :=
  match p.state with
  | .Release => stepRelease opts p ev
  | .TrackList => stepTrackList p ev
  | .Track => stepTrack p ev
  | .TrackTitle => stepTrackTitle p ev
  | .TrackPosition => stepTrackPosition p ev
  | .TrackDuration => stepTrackDuration p ev
  | .Companies => stepCompanies p ev
  | .Identifiers => stepIdentifiers p ev
  | .Artists => stepArtists p ev
  | .ExtraArtists => stepExtraArtists p ev
  | .Images => stepImages p ev
  | .Formats => stepFormats p ev
  | .Format => stepFormat p ev
  | .Title => stepTitle p ev
  | .Country => stepCountry p ev
  | .Released => stepReleased p ev
  | .Notes => stepNotes p ev
  | .Genres => stepGenres p ev
  | .Genre => stepGenre p ev
  | .Styles => stepStyles p ev
  | .Style => stepStyle p ev
  | .MasterId => stepMasterId p ev
  | .DataQuality => stepDataQuality p ev
  | .Labels => stepLabels p ev
  | .Videos => stepVideos p ev

/-- Drive the parser over a list of events, stopping at the first error
(the caller in `main.rs` propagates the first `Err` and aborts the run). -/
def runEvents (opts : DbOpt) (p : ReleasesParser) : List Event → Except PError ReleasesParser
  | [] => .ok p
  | e :: rest =>
    match process opts p e with
    | .ok q => runEvents opts q rest
    | .error err => .error err

/-- Extract the final state of a successful run. -/
def finalState (r : Except PError ReleasesParser) : ReleasesParser :=
  match r with
  | .ok t => t
  | .error _ => ReleasesParser.new

/-- Models `InsertCommand::execute`: `data.for_each(|v| writer.write(&v.to_sql()))`
writes one binary row per record, strictly in the order of the iterator it
is given. -/
def insertCommandExecute (to_sql : α → List SqlValue) (iter : List α) : List (List SqlValue) :=
  iter.map to_sql

/-- A `HashMap::values()` iteration strategy is valid when it yields exactly
the stored records, in some order.  Rust fixes the order per process run via
the hasher's random seed, so the order is a parameter of the model, not a
function of the source. -/
def hashOrderValid (ord : List (Int × α) → List α) : Prop :=
  ∀ m : List (Int × α), List.Perm (ord m) (m.map Prod.snd)

/-- One possible `HashMap` iteration order: insertion order. -/
def insOrd (m : List (Int × α)) : List α := m.map Prod.snd

/-- Another possible `HashMap` iteration order: reverse insertion order. -/
def revOrd (m : List (Int × α)) : List α := (m.map Prod.snd).reverse

/-- The rows written to the five tables by one `write_releases` call, in
write order.  `releases`, `release_labels` and `release_videos` are
`HashMap`s, so their iterators use the given order; `tracks` and `formats`
are `BTreeMap`s and iterate in ascending key order. -/
structure WriteLog where
  releaseRows : List (List SqlValue)
  labelRows : List (List SqlValue)
  videoRows : List (List SqlValue)
  trackRows : List (List SqlValue)
  formatRows : List (List SqlValue)
  deriving DecidableEq, Repr

/-- Models `write_releases` (db.rs): one `InsertCommand::execute` per table, fed by
the corresponding accumulator's `values()` iterator.  The three `HashMap`
tables take their (hasher-seed dependent) iteration orders as parameters;
the two `BTreeMap` tables iterate in ascending key order. -/
def write_releases_rows (relOrd : List (Int × Release) → List Release)
    (labOrd : List (Int × ReleaseLabel) → List ReleaseLabel)
    (vidOrd : List (Int × ReleaseVideo) → List ReleaseVideo)
    (f : Flush) : WriteLog :=
  { releaseRows := insertCommandExecute Release.to_sql (relOrd f.releases)
    labelRows := insertCommandExecute ReleaseLabel.to_sql (labOrd f.release_labels)
    videoRows := insertCommandExecute ReleaseVideo.to_sql (vidOrd f.release_videos)
    trackRows := insertCommandExecute Track.to_sql (btValues f.tracks)
    formatRows := insertCommandExecute Format.to_sql (btValues f.formats) }

def videosEmptyTitle (p : ReleasesParser) : Prop :=
  (∀ e ∈ p.release_videos, e.2.title = "") ∧
  (∀ fl ∈ p.flushes, ∀ e ∈ fl.release_videos, e.2.title = "")

def isMasterIdStart : Event → Bool
  | .start n _ => localName n == "master_id"
  | _ => false

def masterIdZero (p : ReleasesParser) : Prop :=
  p.state ≠ .MasterId ∧ p.current_release.master_id = 0 ∧
  (∀ e ∈ p.releases, e.2.master_id = 0) ∧
  (∀ fl ∈ p.flushes, ∀ e ∈ fl.releases, e.2.master_id = 0)

def renderDigit (d : Nat) : Char :=
  if d = 0 then '0' else if d = 1 then '1' else if d = 2 then '2' else if d = 3 then '3'
  else if d = 4 then '4' else if d = 5 then '5' else if d = 6 then '6' else if d = 7 then '7'
  else if d = 8 then '8' else '9'

def natDigits (n : Nat) : List Char :=
  if h : n < 10 then [renderDigit n]
  else natDigits (n / 10) ++ [renderDigit (n % 10)]
termination_by n
decreasing_by exact Nat.div_lt_self (by omega) (by omega)

def natToStr (n : Nat) : String := String.mk (natDigits n)

def releaseEvents (i : Nat) : List Event :=
  [.start "release" [("id", natToStr i), ("status", "Accepted")], .close "release"]

def rangeEvents (a : Nat) : Nat → List Event
  | 0 => []
  | n + 1 => releaseEvents a ++ rangeEvents (a + 1) n

def releasesInput (n : Nat) : List Event :=
  rangeEvents 0 n ++ [.close "releases"]

def startNames : ParserReadState → List String
  | .Release => ["release", "title", "country", "released", "notes", "genres", "styles",
                 "master_id", "data_quality", "labels", "videos", "tracklist", "images",
                 "artists", "extraartists", "formats", "identifiers", "companies"]
  | .TrackList => ["track"]
  | .Track => ["title", "position", "duration"]
  | .Genres => ["genre"]
  | .Styles => ["style"]
  | .Formats => ["format"]
  | .Videos => ["video"]
  | _ => []

def closeNames : ParserReadState → List String
  | .Release => ["release", "releases"]
  | .TrackList => ["tracklist"]
  | .Track => ["track"]
  | .TrackTitle => ["title"]
  | .TrackPosition => ["position"]
  | .TrackDuration => ["duration"]
  | .Companies => ["companies"]
  | .Identifiers => ["identifiers"]
  | .Artists => ["artists"]
  | .ExtraArtists => ["extraartists"]
  | .Images => ["images"]
  | .Formats => ["formats"]
  | .Format => ["format"]
  | .Title => ["title"]
  | .Country => ["country"]
  | .Released => ["released"]
  | .Notes => ["notes"]
  | .Genres => ["genres"]
  | .Genre => ["genre"]
  | .Styles => ["styles"]
  | .Style => ["style"]
  | .MasterId => ["master_id"]
  | .DataQuality => ["data_quality"]
  | .Labels => ["labels"]
  | .Videos => ["videos"]

def c1CexInput : List Event :=
  [.start "release" [("id", "0"), ("status", "Accepted")], .close "release",
   .close "releases"]

def c2Input (s1 s2 t1 t2 : String) : List Event :=
  [.start "release" [("id", "7"), ("status", s1)],
   .start "title" [], .text t1, .close "title", .close "release",
   .start "release" [("id", "7"), ("status", s2)],
   .start "title" [], .text t2, .close "title", .close "release",
   .close "releases"]

def trackEvents (pos : String) : List Event :=
  [.start "track" [], .start "position" [], .text pos, .close "position", .close "track"]

def c5Input (p1 p2 p3 : String) : List Event :=
  [.start "release" [("id", "7"), ("status", "Accepted")], .start "tracklist" []] ++
    trackEvents p1 ++ trackEvents p2 ++ trackEvents p3 ++
    [.close "tracklist", .close "release", .close "releases"]

def c4Input : List Event :=
  [.start "release" [("id", "1"), ("status", "A")], .start "tracklist" []] ++
    trackEvents "A1" ++ [.close "tracklist", .close "release"] ++
  [.start "release" [("id", "2"), ("status", "A")], .start "tracklist" []] ++
    trackEvents "B1" ++ [.close "tracklist", .close "release", .close "releases"]

def c3Input : List Event :=
  [.start "release" [("id", "1"), ("status", "A")],
   .start "title" [], .text "First", .close "title", .close "release",
   .start "release" [("id", "2"), ("status", "A")],
   .start "title" [], .text "Second", .close "title", .close "release",
   .close "releases"]

def c3Flush : Flush :=
  (finalState (runEvents ⟨10⟩ ReleasesParser.new c3Input)).flushes.headD ⟨[], [], [], [], []⟩

def c6Pre : Except PError ReleasesParser :=
  runEvents ⟨10⟩ ReleasesParser.new
    [.start "release" [("id", "7"), ("status", "A")], .start "labels" []]

def c6Post : Except PError ReleasesParser :=
  match c6Pre with
  | .ok q => process ⟨10⟩ q (.empty "foo" [("a", "L"), ("b", "C"), ("c", "9")])
  | .error e => .error e

def c7Post : Except PError ReleasesParser :=
  match c6Pre with
  | .ok q => process ⟨10⟩ q (.empty "label" [("name", "L"), ("id", "5")])
  | .error e => .error e

def c9Input : List Event :=
  [.start "release" [("id", "7"), ("status", "A")], .start "videos" [],
   .start "video" [("src", "u"), ("duration", "42")], .close "video", .close "videos",
   .close "release", .close "releases"]

lemma hmOrInsert_subset {α : Type} {m : List (Int × α)} {k : Int} {v : α} :
    ∀ e ∈ hmOrInsert m k v, e ∈ m ∨ e = (k, v) := by
  intro e he
  unfold hmOrInsert at he
  split at he
  · exact .inl he
  · rcases List.mem_append.1 he with h | h
    · exact .inl h
    · exact .inr (List.mem_singleton.1 h)

lemma releaseChildState_ne_masterId {m : String} (hm : m ≠ "master_id") :
    releaseChildState m ≠ .MasterId := by
  by_cases h1 : m = "title"
  · subst h1; decide
  by_cases h2 : m = "country"
  · subst h2; decide
  by_cases h3 : m = "released"
  · subst h3; decide
  by_cases h4 : m = "notes"
  · subst h4; decide
  by_cases h5 : m = "genres"
  · subst h5; decide
  by_cases h6 : m = "styles"
  · subst h6; decide
  by_cases h7 : m = "data_quality"
  · subst h7; decide
  by_cases h8 : m = "labels"
  · subst h8; decide
  by_cases h9 : m = "videos"
  · subst h9; decide
  by_cases h10 : m = "tracklist"
  · subst h10; decide
  by_cases h11 : m = "images"
  · subst h11; decide
  by_cases h12 : m = "artists"
  · subst h12; decide
  by_cases h13 : m = "extraartists"
  · subst h13; decide
  by_cases h14 : m = "formats"
  · subst h14; decide
  by_cases h15 : m = "identifiers"
  · subst h15; decide
  by_cases h16 : m = "companies"
  · subst h16; decide
  unfold releaseChildState
  rw [if_neg h1, if_neg h2, if_neg h3, if_neg h4, if_neg h5, if_neg h6, if_neg hm,
    if_neg h7, if_neg h8, if_neg h9, if_neg h10, if_neg h11, if_neg h12, if_neg h13,
    if_neg h14, if_neg h15, if_neg h16]
  decide

lemma videosEmptyTitle_step (opts : DbOpt) (p : ReleasesParser) (ev : Event) (t : ReleasesParser)
    (h : process opts p ev = .ok t) (hv : videosEmptyTitle p) : videosEmptyTitle t := by
  rcases p with ⟨st, rels, cur, cid, rlabs, cvid, rvids, ctid, trks, cfid, fmts, fls⟩
  obtain ⟨h1, h2⟩ := hv
  cases st <;> cases ev <;>
    simp only [process, stepRelease, stepTrackList, stepTrack, stepTrackTitle,
      stepTrackPosition, stepTrackDuration, stepCompanies, stepIdentifiers, stepArtists,
      stepExtraArtists, stepImages, stepFormats, stepFormat, stepTitle, stepCountry,
      stepReleased, stepNotes, stepGenres, stepGenre, stepStyles, stepStyle,
      stepMasterId, stepDataQuality, stepLabels, stepVideos,
      releaseOpen, releaseCloseStep, releasesCloseStep, labelEmptyStep, videoOpenStep,
      masterIdText] at h <;>
    (repeat' split at h) <;>
    (try cases h) <;>
    (try exact ⟨h1, h2⟩)
  · refine ⟨fun e he => (List.not_mem_nil e he).elim, fun fl hq => ?_⟩
    rcases List.mem_append.1 hq with hf | hf
    · exact h2 fl hf
    · rcases List.mem_singleton.1 hf with rfl
      exact h1
  · refine ⟨h1, fun fl hq => ?_⟩
    rcases List.mem_append.1 hq with hf | hf
    · exact h2 fl hf
    · rcases List.mem_singleton.1 hf with rfl
      exact h1
  · refine ⟨fun e he => ?_, h2⟩
    rcases hmOrInsert_subset e he with hmm | rfl
    · exact h1 e hmm
    · rfl

lemma masterIdZero_step (opts : DbOpt) (p : ReleasesParser) (ev : Event) (t : ReleasesParser)
    (hev : isMasterIdStart ev = false)
    (h : process opts p ev = .ok t) (hm : masterIdZero p) : masterIdZero t := by
  rcases p with ⟨st, rels, cur, cid, rlabs, cvid, rvids, ctid, trks, cfid, fmts, fls⟩
  obtain ⟨hs, hcr, hrel, hfl⟩ := hm
  cases st <;> cases ev <;>
    (try exact absurd rfl hs) <;>
    simp only [process, stepRelease, stepTrackList, stepTrack, stepTrackTitle,
      stepTrackPosition, stepTrackDuration, stepCompanies, stepIdentifiers, stepArtists,
      stepExtraArtists, stepImages, stepFormats, stepFormat, stepTitle, stepCountry,
      stepReleased, stepNotes, stepGenres, stepGenre, stepStyles, stepStyle,
      stepMasterId, stepDataQuality, stepLabels, stepVideos,
      releaseOpen, releaseCloseStep, releasesCloseStep, labelEmptyStep, videoOpenStep,
      masterIdText] at h <;>
    (repeat' split at h) <;>
    (try cases h) <;>
    (try refine ⟨?_, ?_, ?_, ?_⟩) <;>
    (try exact hcr) <;> (try exact hrel) <;> (try exact hfl) <;> (try exact rfl) <;>
    (try (intro hx; exact ParserReadState.noConfusion hx))
  · exact releaseChildState_ne_masterId (by simpa [isMasterIdStart] using hev)
  · intro e he
    exact absurd he (List.not_mem_nil e)
  · intro fl hq
    rcases List.mem_append.1 hq with hf | hf
    · exact hfl fl hf
    · rcases List.mem_singleton.1 hf with rfl
      intro e he
      rcases hmOrInsert_subset e he with hmm | rfl
      · exact hrel e hmm
      · exact hcr
  · intro e he
    rcases hmOrInsert_subset e he with hmm | rfl
    · exact hrel e hmm
    · exact hcr
  · intro fl hq
    rcases List.mem_append.1 hq with hf | hf
    · exact hfl fl hf
    · rcases List.mem_singleton.1 hf with rfl
      exact hrel

lemma videosEmptyTitle_run (opts : DbOpt) (evs : List Event) (p t : ReleasesParser)
    (h : runEvents opts p evs = .ok t) (hv : videosEmptyTitle p) : videosEmptyTitle t := by
  induction evs generalizing p with
  | nil => cases h; exact hv
  | cons e rest ih =>
    unfold runEvents at h
    cases hpe : process opts p e with
    | ok q =>
      rw [hpe] at h
      exact ih q h (videosEmptyTitle_step opts p e q hpe hv)
    | error err => rw [hpe] at h; cases h

lemma masterIdZero_run (opts : DbOpt) (evs : List Event) (p t : ReleasesParser)
    (hev : ∀ e ∈ evs, isMasterIdStart e = false)
    (h : runEvents opts p evs = .ok t) (hm : masterIdZero p) : masterIdZero t := by
  induction evs generalizing p with
  | nil => cases h; exact hm
  | cons e rest ih =>
    unfold runEvents at h
    cases hpe : process opts p e with
    | ok q =>
      rw [hpe] at h
      exact ih q (fun x hx => hev x (List.mem_cons_of_mem e hx)) h
        (masterIdZero_step opts p e q (hev e (List.mem_cons_self e rest)) hpe hm)
    | error err => rw [hpe] at h; cases h

lemma digitVal_renderDigit {d : Nat} (hd : d < 10) : digitVal (renderDigit d) = some d := by
  interval_cases d <;> rfl

lemma parseDigitsAux_append (acc : Nat) (xs ys : List Char) :
    parseDigitsAux acc (xs ++ ys) =
      match parseDigitsAux acc xs with
      | some m => parseDigitsAux m ys
      | none => none := by
  induction xs generalizing acc with
  | nil => rfl
  | cons c cs ih =>
    simp only [List.cons_append, parseDigitsAux]
    cases hd : digitVal c with
    | some d => exact ih _
    | none => rfl

lemma parseDigitsAux_natDigits (n : Nat) :
    ∀ acc, parseDigitsAux acc (natDigits n) = some (acc * 10 ^ (natDigits n).length + n) := by
  induction n using Nat.strong_induction_on with
  | _ n ih =>
    intro acc
    by_cases h : n < 10
    · rw [natDigits, dif_pos h]
      simp [parseDigitsAux, digitVal_renderDigit h]
      ring
    · rw [natDigits, dif_neg h]
      rw [parseDigitsAux_append]
      rw [ih (n / 10) (Nat.div_lt_self (by omega) (by omega)) acc]
      have hlen : (natDigits n).length = (natDigits (n / 10)).length + 1 := by
        conv => lhs; rw [natDigits, dif_neg h]
        simp
      simp only [parseDigitsAux, digitVal_renderDigit (Nat.mod_lt n (by omega)),
        List.length_append, List.length_singleton]
      congr 1
      rw [pow_succ]
      nlinarith [Nat.div_add_mod n 10]

lemma natDigits_ne_nil (n : Nat) : natDigits n ≠ [] := by
  rw [natDigits]
  split <;> simp

lemma natDigits_all_digits (n : Nat) : ∀ c ∈ natDigits n, (digitVal c).isSome := by
  induction n using Nat.strong_induction_on with
  | _ n ih =>
    intro c hc
    rw [natDigits] at hc
    split at hc
    · rcases List.mem_singleton.1 hc with rfl
      simp [digitVal_renderDigit (by omega : n < 10)]
    · rcases List.mem_append.1 hc with hm | hm
      · exact ih (n / 10) (Nat.div_lt_self (by omega) (by omega)) c hm
      · rcases List.mem_singleton.1 hm with rfl
        simp [digitVal_renderDigit (Nat.mod_lt n (by omega))]

lemma parseNatList_natDigits (n : Nat) : parseNatList (natDigits n) = some n := by
  cases hl : natDigits n with
  | nil => exact absurd hl (natDigits_ne_nil n)
  | cons c cs =>
    have : parseDigitsAux 0 (natDigits n) = some n := by
      rw [parseDigitsAux_natDigits n 0]
      simp
    rw [hl] at this
    simpa [parseNatList] using this

lemma parseI32_natToStr {n : Nat} (hn : n ≤ 2147483647) :
    parseI32 (natToStr n) = .ok (Int.ofNat n) := by
  have htl : (natToStr n).toList = natDigits n := rfl
  cases hl : natDigits n with
  | nil => exact absurd hl (natDigits_ne_nil n)
  | cons c cs =>
    have hc : (digitVal c).isSome := natDigits_all_digits n c (by rw [hl]; exact List.mem_cons_self c cs)
    have hcm : c ≠ '-' := by intro hcc; rw [hcc] at hc; simp [digitVal] at hc
    have hcp : c ≠ '+' := by intro hcc; rw [hcc] at hc; simp [digitVal] at hc
    have hpn : parseNatList (c :: cs) = some n := by
      rw [← hl, parseNatList_natDigits]
    simp only [parseI32, htl, hl, if_neg hcm, if_neg hcp, hpn, Option.bind, if_pos hn]
    rfl

lemma runEvents_cons_ok {opts : DbOpt} {p q : ReleasesParser} {e : Event} (rest : List Event)
    (h : process opts p e = .ok q) :
    runEvents opts p (e :: rest) = runEvents opts q rest := by
  conv_lhs => unfold runEvents
  rw [h]

lemma hmOrInsert_of_forall_ne {α : Type} {m : List (Int × α)} {k : Int} {v : α}
    (h : ∀ e ∈ m, e.1 ≠ k) : hmOrInsert m k v = m ++ [(k, v)] := by
  unfold hmOrInsert
  have : hmContains m k = false := by
    simp only [hmContains, List.any_eq_false]
    intro e he
    simpa using h e he
  simp [this]

lemma process_release_open (opts : DbOpt)
    (rels : List (Int × Release)) (cur : Release) (cid : Int)
    (rlabs : List (Int × ReleaseLabel)) (cvid : Int) (rvids : List (Int × ReleaseVideo))
    (ctid : Int) (trks : List (Int × Track)) (cfid : Int) (fmts : List (Int × Format))
    (fls : List Flush) {a : Nat} (ha : a ≤ 2147483647) :
    process opts ⟨.Release, rels, cur, cid, rlabs, cvid, rvids, ctid, trks, cfid, fmts, fls⟩
        (.start "release" [("id", natToStr a), ("status", "Accepted")]) =
      .ok ⟨.Release, rels, { Release.new (Int.ofNat a) with status := "Accepted" },
           Int.ofNat a, rlabs, cvid, rvids, ctid, trks, cfid, fmts, fls⟩ := by
  simp only [process, stepRelease, releaseOpen, attrNth, List.get?]
  rw [if_pos (show localName "release" = "release" from rfl)]
  rw [parseI32_natToStr ha]

lemma process_release_close (opts : DbOpt)
    (rels : List (Int × Release)) (cur : Release) (cid : Int)
    (rlabs : List (Int × ReleaseLabel)) (cvid : Int) (rvids : List (Int × ReleaseVideo))
    (ctid : Int) (trks : List (Int × Track)) (cfid : Int) (fmts : List (Int × Format))
    (fls : List Flush) :
    process opts ⟨.Release, rels, cur, cid, rlabs, cvid, rvids, ctid, trks, cfid, fmts, fls⟩
        (.close "release") =
      (if (hmOrInsert rels cid cur).length ≥ opts.batch_size then
        .ok ⟨.Release, [], cur, cid, [], cvid, [], ctid, [], cfid, [],
             fls ++ [⟨hmOrInsert rels cid cur, rlabs, rvids, trks, fmts⟩]⟩
      else
        .ok ⟨.Release, hmOrInsert rels cid cur, cur, cid, rlabs, cvid, rvids, ctid, trks,
             cfid, fmts, fls⟩) := by
  simp only [process, stepRelease, releaseCloseStep]
  rw [if_pos (show localName "release" = "release" from rfl)]

lemma process_releases_close (opts : DbOpt)
    (rels : List (Int × Release)) (cur : Release) (cid : Int)
    (rlabs : List (Int × ReleaseLabel)) (cvid : Int) (rvids : List (Int × ReleaseVideo))
    (ctid : Int) (trks : List (Int × Track)) (cfid : Int) (fmts : List (Int × Format))
    (fls : List Flush) :
    process opts ⟨.Release, rels, cur, cid, rlabs, cvid, rvids, ctid, trks, cfid, fmts, fls⟩
        (.close "releases") =
      .ok ⟨.Release, rels, cur, cid, rlabs, cvid, rvids, ctid, trks, cfid, fmts,
           fls ++ [⟨rels, rlabs, rvids, trks, fmts⟩]⟩ := by
  simp only [process, stepRelease, releasesCloseStep]
  rw [if_neg (show ¬ localName "releases" = "release" by decide),
    if_pos (show localName "releases" = "releases" from rfl)]

lemma run_rangeEvents (B : Nat) (hB : 1 ≤ B) (N : Nat) :
    ∀ (a : Nat) (p : ReleasesParser),
      p.state = .Release →
      p.releases.length < B →
      (∀ k ∈ p.releases, ∃ m : Nat, m < a ∧ k.1 = Int.ofNat m) →
      a + N ≤ 2147483648 →
      ∃ t, runEvents ⟨B⟩ p (rangeEvents a N) = .ok t ∧
        t.state = .Release ∧
        t.releases.length = (p.releases.length + N) % B ∧
        (∀ k ∈ t.releases, ∃ m : Nat, m < a + N ∧ k.1 = Int.ofNat m) ∧
        ∃ L, t.flushes = p.flushes ++ L ∧ L.length = (p.releases.length + N) / B ∧
          ∀ fl ∈ L, fl.releases.length = B := by
  induction N with
  | zero =>
    intro a p hp hlen hkeys _
    refine ⟨p, rfl, hp, ?_, ?_, [], by simp, ?_, by simp⟩
    · rw [Nat.add_zero, Nat.mod_eq_of_lt hlen]
    · intro k hk
      obtain ⟨m, hm, hkm⟩ := hkeys k hk
      exact ⟨m, by omega, hkm⟩
    · rw [Nat.add_zero, Nat.div_eq_of_lt hlen]
      simp
  | succ N ih =>
    intro a p hp hlen hkeys hbound
    rcases p with ⟨st, rels, cur, cid, rlabs, cvid, rvids, ctid, trks, cfid, fmts, fls⟩
    obtain rfl : st = .Release := hp
    have hlen2 : rels.length < B := hlen
    have hkeys2 : ∀ k ∈ rels, ∃ m : Nat, m < a ∧ k.1 = Int.ofNat m := hkeys
    clear hlen hkeys
    have ha : a ≤ 2147483647 := by omega
    have hre : rangeEvents a (N + 1) =
        Event.start "release" [("id", natToStr a), ("status", "Accepted")] ::
          Event.close "release" :: rangeEvents (a + 1) N := rfl
    rw [hre]
    rw [runEvents_cons_ok _ (process_release_open ⟨B⟩ rels cur cid rlabs cvid rvids ctid
      trks cfid fmts fls ha)]
    have hne : ∀ e ∈ rels, e.1 ≠ Int.ofNat a := by
      intro e he
      obtain ⟨m, hm, hkm⟩ := hkeys2 e he
      rw [hkm]
      intro hcon
      have := Int.ofNat.inj hcon
      omega
    have hins : hmOrInsert rels (Int.ofNat a)
        { Release.new (Int.ofNat a) with status := "Accepted" } =
        rels ++ [(Int.ofNat a, { Release.new (Int.ofNat a) with status := "Accepted" })] :=
      hmOrInsert_of_forall_ne hne
    by_cases hfull : (hmOrInsert rels (Int.ofNat a)
        { Release.new (Int.ofNat a) with status := "Accepted" }).length ≥ B
    · -- the batch is full: flush and clear
      have hstep2 : process ⟨B⟩
          ⟨.Release, rels, { Release.new (Int.ofNat a) with status := "Accepted" },
           Int.ofNat a, rlabs, cvid, rvids, ctid, trks, cfid, fmts, fls⟩
          (.close "release") =
          .ok ⟨.Release, [], { Release.new (Int.ofNat a) with status := "Accepted" },
               Int.ofNat a, [], cvid, [], ctid, [], cfid, [],
               fls ++ [⟨hmOrInsert rels (Int.ofNat a)
                 { Release.new (Int.ofNat a) with status := "Accepted" },
                 rlabs, rvids, trks, fmts⟩]⟩ := by
        rw [process_release_close]
        rw [if_pos hfull]
      rw [runEvents_cons_ok _ hstep2]
      have hB1 : rels.length + 1 = B := by
        rw [hins, List.length_append, List.length_singleton] at hfull
        omega
      obtain ⟨t, hrun, hst, htlen, htkeys, L, hflt, hLlen, hLall⟩ :=
        ih (a + 1)
          ⟨.Release, [], { Release.new (Int.ofNat a) with status := "Accepted" },
           Int.ofNat a, [], cvid, [], ctid, [], cfid, [],
           fls ++ [⟨hmOrInsert rels (Int.ofNat a)
             { Release.new (Int.ofNat a) with status := "Accepted" },
             rlabs, rvids, trks, fmts⟩]⟩
          rfl (by simpa using hB) (by intro k hk; exact absurd hk (List.not_mem_nil k))
          (by omega)
      refine ⟨t, hrun, hst, ?_, ?_, ?_⟩
      · show t.releases.length = (rels.length + (N + 1)) % B
        rw [htlen]
        have h1 : rels.length + (N + 1) = N + B := by omega
        rw [h1, Nat.add_mod_right]
        simp
      · intro k hk
        obtain ⟨m, hm, hkm⟩ := htkeys k hk
        exact ⟨m, by omega, hkm⟩
      · refine ⟨⟨hmOrInsert rels (Int.ofNat a)
          { Release.new (Int.ofNat a) with status := "Accepted" },
          rlabs, rvids, trks, fmts⟩ :: L, ?_, ?_, ?_⟩
        · show t.flushes = fls ++ _
          rw [hflt]
          simp
        · show _ = (rels.length + (N + 1)) / B
          rw [List.length_cons, hLlen]
          have h1 : rels.length + (N + 1) = N + B := by omega
          rw [h1, Nat.add_div_right _ (by omega)]
          simp
        · intro fl hfl2
          rcases List.mem_cons.1 hfl2 with rfl | hm
          · simp only [hins, List.length_append, List.length_singleton]
            omega
          · exact hLall fl hm
    · -- batch below threshold: keep accumulating
      have hstep2 : process ⟨B⟩
          ⟨.Release, rels, { Release.new (Int.ofNat a) with status := "Accepted" },
           Int.ofNat a, rlabs, cvid, rvids, ctid, trks, cfid, fmts, fls⟩
          (.close "release") =
          .ok ⟨.Release, hmOrInsert rels (Int.ofNat a)
                 { Release.new (Int.ofNat a) with status := "Accepted" },
               { Release.new (Int.ofNat a) with status := "Accepted" },
               Int.ofNat a, rlabs, cvid, rvids, ctid, trks, cfid, fmts, fls⟩ := by
        rw [process_release_close]
        rw [if_neg hfull]
      rw [runEvents_cons_ok _ hstep2]
      have hlt : rels.length + 1 < B := by
        rw [hins, List.length_append, List.length_singleton] at hfull
        omega
      obtain ⟨t, hrun, hst, htlen, htkeys, L, hflt, hLlen, hLall⟩ :=
        ih (a + 1)
          ⟨.Release, hmOrInsert rels (Int.ofNat a)
             { Release.new (Int.ofNat a) with status := "Accepted" },
           { Release.new (Int.ofNat a) with status := "Accepted" },
           Int.ofNat a, rlabs, cvid, rvids, ctid, trks, cfid, fmts, fls⟩
          rfl (by rw [hins]; simpa using hlt)
          (by
            intro k hk
            rw [hins] at hk
            rcases List.mem_append.1 hk with hm | hm
            · obtain ⟨m, hma, hkm⟩ := hkeys2 k hm
              exact ⟨m, by omega, hkm⟩
            · rcases List.mem_singleton.1 hm with rfl
              exact ⟨a, by omega, rfl⟩)
          (by omega)
      refine ⟨t, hrun, hst, ?_, ?_, ?_⟩
      · show t.releases.length = (rels.length + (N + 1)) % B
        rw [htlen, hins]
        simp only [List.length_append, List.length_singleton]
        congr 1
        omega
      · intro k hk
        obtain ⟨m, hm, hkm⟩ := htkeys k hk
        exact ⟨m, by omega, hkm⟩
      · refine ⟨L, hflt, ?_, hLall⟩
        show _ = (rels.length + (N + 1)) / B
        rw [hLlen, hins]
        simp only [List.length_append, List.length_singleton]
        congr 1
        omega

lemma runEvents_append (opts : DbOpt) (xs ys : List Event) :
    ∀ p : ReleasesParser, runEvents opts p (xs ++ ys) =
      match runEvents opts p xs with
      | .ok q => runEvents opts q ys
      | .error err => .error err := by
  induction xs with
  | nil => intro p; rfl
  | cons e rest ih =>
    intro p
    rw [List.cons_append]
    cases hpe : process opts p e with
    | ok q =>
      rw [runEvents_cons_ok _ hpe, runEvents_cons_ok _ hpe]
      exact ih q
    | error err =>
      have h1 : runEvents opts p (e :: (rest ++ ys)) = .error err := by
        unfold runEvents
        rw [hpe]
      have h2 : runEvents opts p (e :: rest) = .error err := by
        unfold runEvents
        rw [hpe]
      rw [h1, h2]

/-- Claim C1 (amended): for N complete release elements with pairwise
distinct identifiers followed by the releases closing tag, with batch size
B ≥ 1, `write_releases` is invoked exactly N/B + 1 times (floor division):
the first N/B invocations carry exactly B primary release rows each, and the
final invocation — the unconditional flush on the collection's closing tag —
carries the remaining N mod B rows, possibly zero.  (ceil(N/B) as claimed
only when B does not divide N.) -/
theorem release_flush_schedule (N B : Nat) (hB : 1 ≤ B) (hN : N ≤ 2147483647) :
    ∃ t, runEvents ⟨B⟩ ReleasesParser.new (releasesInput N) = .ok t ∧
      ∃ L fl, t.flushes = L ++ [fl] ∧
        L.length = N / B ∧ (∀ x ∈ L, x.releases.length = B) ∧
        fl.releases.length = N % B := by
  obtain ⟨t1, hrun, hst, hlen, hkeys, L, hfl, hLlen, hLall⟩ :=
    run_rangeEvents B hB N 0 ReleasesParser.new rfl (by simpa [ReleasesParser.new] using hB)
      (by intro k hk; exact absurd hk (List.not_mem_nil k)) (by omega)
  rcases t1 with ⟨st, rels, cur, cid, rlabs, cvid, rvids, ctid, trks, cfid, fmts, fls⟩
  obtain rfl : st = .Release := hst
  have hlen' : rels.length = (0 + N) % B := hlen
  have hfl' : fls = [] ++ L := hfl
  have hLlen' : L.length = (0 + N) / B := hLlen
  refine ⟨⟨.Release, rels, cur, cid, rlabs, cvid, rvids, ctid, trks, cfid, fmts,
           fls ++ [⟨rels, rlabs, rvids, trks, fmts⟩]⟩, ?_, L, ⟨rels, rlabs, rvids, trks, fmts⟩,
          ?_, ?_, hLall, ?_⟩
  · show runEvents ⟨B⟩ ReleasesParser.new (rangeEvents 0 N ++ [.close "releases"]) = _
    rw [runEvents_append, hrun]
    show runEvents ⟨B⟩ ⟨.Release, rels, cur, cid, rlabs, cvid, rvids, ctid, trks, cfid,
      fmts, fls⟩ [.close "releases"] = _
    rw [runEvents_cons_ok _ (process_releases_close ⟨B⟩ rels cur cid rlabs cvid rvids ctid
      trks cfid fmts fls)]
    rfl
  · show fls ++ [⟨rels, rlabs, rvids, trks, fmts⟩] = L ++ [⟨rels, rlabs, rvids, trks, fmts⟩]
    rw [hfl']
    simp
  · rw [hLlen']
    simp
  · show rels.length = N % B
    rw [hlen']
    simp

/-- Claim C1 (counterexample): with batch size B = 1 and a single complete
release element followed by the releases closing tag, `write_releases` is
invoked twice (the unconditional flush on the collection's closing tag is an
extra, empty invocation), not ceil(1/1) = 1 times as claimed. -/
theorem release_flush_count_cex :
    (runEvents ⟨1⟩ ReleasesParser.new c1CexInput).toOption.map (fun t => t.flushes.length) =
      some 2 ∧ (1 + 1 - 1) / 1 = 1 ∧ 2 ≠ (1 + 1 - 1) / 1 :=
  ⟨rfl, rfl, by decide⟩

/-- Claim C1 (witness for the amended theorem): concrete instance N = 3,
B = 2. -/
theorem release_flush_schedule_witness :
    ∃ t, runEvents ⟨2⟩ ReleasesParser.new (releasesInput 3) = .ok t ∧
      ∃ L fl, t.flushes = L ++ [fl] ∧
        L.length = 3 / 2 ∧ (∀ x ∈ L, x.releases.length = 2) ∧
        fl.releases.length = 3 % 2 :=
  release_flush_schedule 3 2 (by decide) (by decide)

/-- Claim C2: two release elements with the same id 7 inside one open batch
(batch size 10, so no flush intervenes); the flushed row for id 7 is exactly
the record built from the first occurrence (status `s1`, title `t1`) — no
field of the second occurrence (status `s2`, title `t2`) appears, because
`HashMap::entry(..).or_insert(..)` keeps the existing entry. -/
theorem duplicate_release_id_first_wins (s1 s2 t1 t2 : String) :
    (runEvents ⟨10⟩ ReleasesParser.new (c2Input s1 s2 t1 t2)).toOption.map
        (fun t => t.flushes) =
      some [⟨[(7, ⟨7, s1, t1, "", "", "", [], [], 0, ""⟩)], [], [], [], []⟩] :=
  rfl

/-- Claim C4 (counterexample): with batch size 1, two releases with one track
each; the keys of the flushed track batches are [0] then [1] — after the
first flush the synthetic track counter is not reset, so the first track of
the second batch receives key 1, not 0 as claimed. -/
theorem track_key_not_reset_cex :
    (runEvents ⟨1⟩ ReleasesParser.new c4Input).toOption.map
        (fun t => t.flushes.map (fun f => f.tracks.map Prod.fst)) =
      some [[0], [1], []] ∧ (1 : Int) ≠ 0 :=
  ⟨rfl, by decide⟩

/-- Claim C4 (amended): the two flush-triggering events (the `release` and
`releases` closing tags) clear the record accumulators but leave all three
sub-entity counters (`current_track_id`, `current_format_id`,
`current_video_id`) unchanged; the counters are never reset. -/
theorem sub_entity_counters_survive_flush (opts : DbOpt) (p t : ReleasesParser)
    (h : process opts p (.close "release") = .ok t ∨
         process opts p (.close "releases") = .ok t) :
    t.current_track_id = p.current_track_id ∧
    t.current_format_id = p.current_format_id ∧
    t.current_video_id = p.current_video_id := by
  rcases p with ⟨st, rels, cur, cid, rlabs, cvid, rvids, ctid, trks, cfid, fmts, fls⟩
  rcases h with h | h <;> cases st <;>
    simp only [process, stepRelease, stepTrackList, stepTrack, stepTrackTitle,
      stepTrackPosition, stepTrackDuration, stepCompanies, stepIdentifiers, stepArtists,
      stepExtraArtists, stepImages, stepFormats, stepFormat, stepTitle, stepCountry,
      stepReleased, stepNotes, stepGenres, stepGenre, stepStyles, stepStyle,
      stepMasterId, stepDataQuality, stepLabels, stepVideos,
      releaseCloseStep, releasesCloseStep] at h <;>
    (try split at h) <;> (try split at h) <;>
    (cases h) <;> (try simp_all) <;>
    (exact absurd (by assumption) (by decide))

/-- Claim C4 (witness): processing the releases closing tag from the initial
state flushes and leaves all three counters at their previous values. -/
theorem sub_entity_counters_survive_flush_witness :
    (finalState (process ⟨1⟩ ReleasesParser.new (.close "releases"))).current_track_id =
      ReleasesParser.new.current_track_id ∧
    (finalState (process ⟨1⟩ ReleasesParser.new (.close "releases"))).current_format_id =
      ReleasesParser.new.current_format_id ∧
    (finalState (process ⟨1⟩ ReleasesParser.new (.close "releases"))).current_video_id =
      ReleasesParser.new.current_video_id :=
  sub_entity_counters_survive_flush ⟨1⟩ ReleasesParser.new _ (Or.inr rfl)

/-- Claim C5: one release (id 7) whose tracklist holds three tracks with
positions p1, p2, p3 in document order; with batch size 1 the close of the
release flushes one batch whose track rows are passed to the bulk writer in
exactly the order p1, p2, p3 (the `BTreeMap` iterates its strictly
increasing synthetic keys in insertion order); the final flush from the
releases closing tag is empty. -/
theorem track_document_order_preserved (p1 p2 p3 : String) :
    (runEvents ⟨1⟩ ReleasesParser.new (c5Input p1 p2 p3)).toOption.map
        (fun t => t.flushes.map (fun f => (write_releases_rows insOrd insOrd insOrd f).trackRows)) =
      some [[[.int4 7, .text "", .text p1, .text ""],
             [.int4 7, .text "", .text p2, .text ""],
             [.int4 7, .text "", .text p3, .text ""]], []] :=
  rfl

/-- Claim C3 (counterexample): the releases accumulator is a `HashMap`, whose
iteration order is fixed by the hasher's random seed, not by insertion.
Reverse insertion order (`revOrd`) is a valid iteration order, and under it
the release rows of the flushed batch of `c3Input` (document order: id 1
then id 2) are emitted in the order 2, 1 — not document order as claimed. -/
theorem release_row_order_cex :
    hashOrderValid (revOrd (α := Release)) ∧
    c3Flush.releases.map Prod.fst = [1, 2] ∧
    (write_releases_rows revOrd revOrd revOrd c3Flush).releaseRows ≠
      insertCommandExecute Release.to_sql (c3Flush.releases.map Prod.snd) :=
  ⟨fun m => List.reverse_perm _, rfl, by decide⟩

/-- Claim C3 (amended): every table's rows are emitted strictly in the order
of the iterator handed to `InsertCommand::execute`; for the `BTreeMap`-backed
tables (tracks, formats) that iterator is ascending synthetic-key order, i.e.
document order, while for the `HashMap`-backed tables (releases, labels,
videos) the rows are only guaranteed to be a permutation of the accumulated
records — any valid iteration order may be observed. -/
theorem writer_row_order (relOrd : List (Int × Release) → List Release)
    (labOrd : List (Int × ReleaseLabel) → List ReleaseLabel)
    (vidOrd : List (Int × ReleaseVideo) → List ReleaseVideo)
    (h1 : hashOrderValid relOrd) (h2 : hashOrderValid labOrd) (h3 : hashOrderValid vidOrd)
    (f : Flush) :
    ((write_releases_rows relOrd labOrd vidOrd f).releaseRows).Perm
        ((f.releases.map Prod.snd).map Release.to_sql) ∧
    ((write_releases_rows relOrd labOrd vidOrd f).labelRows).Perm
        ((f.release_labels.map Prod.snd).map ReleaseLabel.to_sql) ∧
    ((write_releases_rows relOrd labOrd vidOrd f).videoRows).Perm
        ((f.release_videos.map Prod.snd).map ReleaseVideo.to_sql) ∧
    (write_releases_rows relOrd labOrd vidOrd f).trackRows =
        (btValues f.tracks).map Track.to_sql ∧
    (write_releases_rows relOrd labOrd vidOrd f).formatRows =
        (btValues f.formats).map Format.to_sql :=
  ⟨(h1 f.releases).map Release.to_sql, (h2 f.release_labels).map ReleaseLabel.to_sql,
   (h3 f.release_videos).map ReleaseVideo.to_sql, rfl, rfl⟩

/-- Claim C3 (witness for the amended theorem): insertion order is one valid
iteration order; instantiated at the concrete flushed batch of `c3Input`. -/
theorem writer_row_order_witness :
    ((write_releases_rows insOrd insOrd insOrd c3Flush).releaseRows).Perm
        ((c3Flush.releases.map Prod.snd).map Release.to_sql) ∧
    ((write_releases_rows insOrd insOrd insOrd c3Flush).labelRows).Perm
        ((c3Flush.release_labels.map Prod.snd).map ReleaseLabel.to_sql) ∧
    ((write_releases_rows insOrd insOrd insOrd c3Flush).videoRows).Perm
        ((c3Flush.release_videos.map Prod.snd).map ReleaseVideo.to_sql) ∧
    (write_releases_rows insOrd insOrd insOrd c3Flush).trackRows =
        (btValues c3Flush.tracks).map Track.to_sql ∧
    (write_releases_rows insOrd insOrd insOrd c3Flush).formatRows =
        (btValues c3Flush.formats).map Format.to_sql :=
  writer_row_order insOrd insOrd insOrd (fun _ => List.Perm.refl _)
    (fun _ => List.Perm.refl _) (fun _ => List.Perm.refl _) c3Flush

/-- Claim C6 (counterexample): in the Labels state the `Event::Empty` arm has
no name guard, so a self-closing element with the unrecognised name `foo`
is processed as a label cross-reference: it inserts a `ReleaseLabel` record
(fields taken from its attributes) instead of being a no-op. -/
theorem labels_unknown_empty_event_cex :
    c6Pre.toOption.map (fun q => q.release_labels) = some [] ∧
    c6Post.toOption.map (fun q => q.release_labels) =
      some [(9, ⟨7, "L", "C", 9⟩)] ∧
    ([(9, (⟨7, "L", "C", 9⟩ : ReleaseLabel))] : List (Int × ReleaseLabel)) ≠ [] :=
  ⟨rfl, rfl, by decide⟩

/-- Claim C6 (amended): an element-open or element-close event whose local
name is not recognised in the current state leaves the entire parser state
(including the state value and every accumulated record) unchanged and
returns Ok.  (The original claim fails for self-closing elements in the
Labels state, which are processed regardless of name, and for text nodes
inside unknown children of text-leaf states, which are still captured.) -/
theorem unknown_tag_noop (opts : DbOpt) (p : ReleasesParser) (n : String)
    (attrs : List (String × String))
    (hs : localName n ∉ startNames p.state) (hc : localName n ∉ closeNames p.state) :
    process opts p (.start n attrs) = .ok p ∧ process opts p (.close n) = .ok p := by
  rcases p with ⟨st, rels, cur, cid, rlabs, cvid, rvids, ctid, trks, cfid, fmts, fls⟩
  cases st <;> simp_all [process, startNames, closeNames, stepRelease, stepTrackList,
    stepTrack, stepTrackTitle, stepTrackPosition, stepTrackDuration, stepCompanies,
    stepIdentifiers, stepArtists, stepExtraArtists, stepImages, stepFormats, stepFormat,
    stepTitle, stepCountry, stepReleased, stepNotes, stepGenres, stepGenre, stepStyles,
    stepStyle, stepMasterId, stepDataQuality, stepLabels, stepVideos, releaseChildState]

/-- Claim C6 (witness): the unrecognised element name `zzz` is a no-op in the
initial (Release) state for both its opening and closing tag. -/
theorem unknown_tag_noop_witness :
    process ⟨10⟩ ReleasesParser.new (.start "zzz" []) = .ok ReleasesParser.new ∧
    process ⟨10⟩ ReleasesParser.new (.close "zzz") = .ok ReleasesParser.new :=
  unknown_tag_noop ⟨10⟩ ReleasesParser.new "zzz" [] (by decide) (by decide)

/-- Claim C7 (counterexample): a label cross-reference under labels with only
two attributes (`catno` absent): the positional `nth(2).unwrap()` panics, so
the operation fails — the absent attribute does not become an empty string,
and the failure is a panic rather than a type-conversion error. -/
theorem label_missing_attr_cex :
    c7Post = .error .panicked ∧ PError.panicked ≠ PError.malformed :=
  ⟨rfl, by decide⟩

/-- Claim C7 (amended): a format descriptor resolves its attributes by name
and an absent `name`/`qty`/`text` attribute yields the empty string without
failing; a label cross-reference resolves its attributes positionally and
with fewer than three attributes the element-open processing fails with a
panic (a failed `Option::unwrap`), not an empty-string default. -/
theorem attr_defaults_formats_labels_positional (opts : DbOpt) (p q : ReleasesParser)
    (attrs attrs2 : List (String × String)) (n2 : String)
    (hp : p.state = .Formats)
    (hname : attrFind attrs "name" = none) (hqty : attrFind attrs "qty" = none)
    (htext : attrFind attrs "text" = none)
    (hq : q.state = .Labels) (hlen : attrs2.length ≤ 2) :
    process opts p (.start "format" attrs) =
      .ok { p with formats := btInsert p.formats p.current_format_id
                     (Format.new p.current_id "" "" ""),
                   state := .Format } ∧
    process opts q (.empty n2 attrs2) = .error .panicked := by
  constructor
  · rcases p with ⟨st, rels, cur, cid, rlabs, cvid, rvids, ctid, trks, cfid, fmts, fls⟩
    obtain rfl : st = .Formats := hp
    simp only [process, stepFormats]
    rw [if_pos (show localName "format" = "format" from rfl)]
    rw [hname, hqty, htext]
    rfl
  · rcases q with ⟨st, rels, cur, cid, rlabs, cvid, rvids, ctid, trks, cfid, fmts, fls⟩
    obtain rfl : st = .Labels := hq
    simp only [process, stepLabels, labelEmptyStep, attrNth]
    rw [List.get?_eq_none.2 (by omega)]

/-- Claim C7 (witness): a format descriptor with no attributes at all yields
a record with three empty strings; a label element with no attributes
panics. -/
theorem attr_defaults_formats_labels_positional_witness :
    process ⟨10⟩ { ReleasesParser.new with state := .Formats } (.start "format" []) =
      .ok { { ReleasesParser.new with state := .Formats } with
            formats := btInsert { ReleasesParser.new with state := .Formats }.formats
              { ReleasesParser.new with state := .Formats }.current_format_id
              (Format.new { ReleasesParser.new with state := .Formats }.current_id "" "" ""),
            state := .Format } ∧
    process ⟨10⟩ { ReleasesParser.new with state := .Labels } (.empty "label" []) =
      .error .panicked :=
  attr_defaults_formats_labels_positional ⟨10⟩ _ _ [] [] "label" rfl rfl rfl rfl rfl
    (by decide)

/-- Claim C8: a text node of the numeric `master_id` field whose content
fails `i32` conversion makes `process` return a conversion error, and the
run over any continuation of the event stream aborts with that error — no
batch flush for the open batch can occur and there is no skip-and-continue. -/
theorem malformed_master_id_aborts (opts : DbOpt) (p : ReleasesParser) (c : String)
    (rest : List Event) (hp : p.state = .MasterId)
    (hc : parseI32 c = .error .malformed) :
    process opts p (.text c) = .error .malformed ∧
    runEvents opts p (.text c :: rest) = .error .malformed := by
  have h1 : process opts p (.text c) = .error .malformed := by
    rcases p with ⟨st, rels, cur, cid, rlabs, cvid, rvids, ctid, trks, cfid, fmts, fls⟩
    obtain rfl : st = .MasterId := hp
    simp only [process, stepMasterId, masterIdText, hc]
  refine ⟨h1, ?_⟩
  unfold runEvents
  rw [h1]

/-- Claim C8 (witness): the malformed text "abc" in the MasterId state aborts
the run, with the releases closing tag (and hence its flush) never
processed. -/
theorem malformed_master_id_aborts_witness :
    process ⟨10⟩ { ReleasesParser.new with state := .MasterId } (.text "abc") =
      .error .malformed ∧
    runEvents ⟨10⟩ { ReleasesParser.new with state := .MasterId }
      (.text "abc" :: [.close "releases"]) = .error .malformed :=
  malformed_master_id_aborts ⟨10⟩ _ "abc" [.close "releases"] rfl rfl

/-- Claim C9: for any successful run from the initial state, every
`ReleaseVideo` record in the open accumulator and in every flushed batch has
an empty title (the parser only ever constructs videos with
`title: String::new()`), and hence every record handed to the bulk writer's
release_video iterator, under any valid `HashMap` iteration order, has an
empty title. -/
theorem video_title_always_empty (opts : DbOpt) (evs : List Event) (t : ReleasesParser)
    (h : runEvents opts ReleasesParser.new evs = .ok t)
    (vidOrd : List (Int × ReleaseVideo) → List ReleaseVideo) (hv : hashOrderValid vidOrd) :
    (∀ e ∈ t.release_videos, e.2.title = "") ∧
    (∀ fl ∈ t.flushes, ∀ e ∈ fl.release_videos, e.2.title = "") ∧
    (∀ fl ∈ t.flushes, ∀ v ∈ vidOrd fl.release_videos, v.title = "") := by
  obtain ⟨h1, h2⟩ := videosEmptyTitle_run opts evs ReleasesParser.new t h
    ⟨fun e he => absurd he (List.not_mem_nil e), fun fl hfl => absurd hfl (List.not_mem_nil fl)⟩
  refine ⟨h1, h2, ?_⟩
  intro fl hfl v hvmem
  have hm : v ∈ fl.release_videos.map Prod.snd := ((hv fl.release_videos).mem_iff).1 hvmem
  obtain ⟨e, hemem, rfl⟩ := List.mem_map.1 hm
  exact h2 fl hfl e hemem

/-- Claim C9 (witness): a run with one release containing one video (batch
size 1, so the video is flushed). -/
theorem video_title_always_empty_witness :
    (∀ e ∈ (finalState (runEvents ⟨1⟩ ReleasesParser.new c9Input)).release_videos,
      e.2.title = "") ∧
    (∀ fl ∈ (finalState (runEvents ⟨1⟩ ReleasesParser.new c9Input)).flushes,
      ∀ e ∈ fl.release_videos, e.2.title = "") ∧
    (∀ fl ∈ (finalState (runEvents ⟨1⟩ ReleasesParser.new c9Input)).flushes,
      ∀ v ∈ insOrd fl.release_videos, v.title = "") :=
  video_title_always_empty ⟨1⟩ c9Input _ rfl insOrd (fun _ => List.Perm.refl _)

/-- Claim C10: for any successful run from the initial state whose event
stream contains no `master_id` element-open event, the current release
record, every accumulated release, and every release in every flushed batch
has `master_id = 0` — the value set by `Release::new` — rather than an
absent or null value. -/
theorem no_master_id_defaults_zero (opts : DbOpt) (evs : List Event) (t : ReleasesParser)
    (hev : ∀ e ∈ evs, isMasterIdStart e = false)
    (h : runEvents opts ReleasesParser.new evs = .ok t) :
    t.current_release.master_id = 0 ∧
    (∀ e ∈ t.releases, e.2.master_id = 0) ∧
    (∀ fl ∈ t.flushes, ∀ e ∈ fl.releases, e.2.master_id = 0) := by
  have hz := masterIdZero_run opts evs ReleasesParser.new t hev h
    ⟨by decide, rfl, fun e he => absurd he (List.not_mem_nil e),
     fun fl hfl => absurd hfl (List.not_mem_nil fl)⟩
  exact ⟨hz.2.1, hz.2.2.1, hz.2.2.2⟩

/-- Claim C10 (witness): the single-release input without a `master_id`
child; the flushed row carries `master_id = 0`. -/
theorem no_master_id_defaults_zero_witness :
    (finalState (runEvents ⟨1⟩ ReleasesParser.new c1CexInput)).current_release.master_id = 0 ∧
    (∀ e ∈ (finalState (runEvents ⟨1⟩ ReleasesParser.new c1CexInput)).releases,
      e.2.master_id = 0) ∧
    (∀ fl ∈ (finalState (runEvents ⟨1⟩ ReleasesParser.new c1CexInput)).flushes,
      ∀ e ∈ fl.releases, e.2.master_id = 0) :=
  no_master_id_defaults_zero ⟨1⟩ c1CexInput _ (by decide) rfl

end DiscogsLoad
